import Mathlib

set_option maxRecDepth 10000

namespace ChatSpec

/-! Shallow embedding of the streaming chat pipeline of this repository:
the block assembler and stream loop of src/examples/frontend/useStreamingQuery.ts
and the SSE line parser of src/utils/sse_parser.ts.

JavaScript objects holding block data are modelled as insertion-ordered
association lists (JS objects and Map preserve first-insertion key order);
the values stored in a block data object are either strings or arrays,
the only shapes applyBlockDelta ever writes. -/

/-- A JavaScript value as stored in a block data object by the assembler:
either a string or an array (rows are arrays of arrays of strings). -/
inductive JVal where
  | str (s : String)
  | arr (elems : List JVal)

abbrev DataMap := List (String × JVal)

/-- JS object or Map key update: overwrites in place (keeping the original
insertion position of the key) or appends a new key at the end. -/
def setEntry {α : Type} : List (String × α) → String → α → List (String × α)
  | [], k, v => [(k, v)]
  | (k', v') :: rest, k, v =>
      if k' = k then (k, v) :: rest else (k', v') :: setEntry rest k v

/-- JS object or Map key lookup. -/
def getEntry {α : Type} : List (String × α) → String → Option α
  | [], _ => none
  | (k', v') :: rest, k => if k' = k then some v' else getEntry rest k

/-- JS Map.delete: removes the entry for the key (keys are unique). -/
def delEntry {α : Type} : List (String × α) → String → List (String × α)
  | [], _ => []
  | (k', v') :: rest, k => if k' = k then rest else (k', v') :: delEntry rest k

/-- JS truthiness test on a possibly absent data value: undefined and the
empty string are falsy, every array and nonempty string is truthy. -/
def jsFalsy : Option JVal → Bool
  | none => true
  | some (.str s) => s == ""
  | some (.arr _) => false

/-! Executable models of the JavaScript string operations used by the
source (split on a character, trim, startsWith, slice, includes), written
by structural recursion on the character list so that concrete runs reduce
inside the kernel. -/

/-- Whitespace as trimmed by String.prototype.trim (the ASCII cases; the
exotic unicode whitespace never appears in the modelled payloads). -/
def isWsChar (c : Char) : Bool :=
  c == ' ' || c == '\t' || c == '\n' || c == '\r'

def trimCharList (l : List Char) : List Char :=
  ((l.dropWhile isWsChar).reverse.dropWhile isWsChar).reverse

/-- s.trim() -/
def strTrim (s : String) : String :=
  (trimCharList s.toList).asString

def splitCharAux (c : Char) : List Char → List Char × List (List Char)
  | [] => ([], [])
  | x :: xs =>
      let r := splitCharAux c xs
      if x == c then ([], r.1 :: r.2) else (x :: r.1, r.2)

/-- s.split(c) for a one-character separator: JS semantics, the empty string
splits to one empty field. -/
def splitChar (c : Char) (l : List Char) : List (List Char) :=
  (splitCharAux c l).1 :: (splitCharAux c l).2

def isPrefixCharList : List Char → List Char → Bool
  | [], _ => true
  | _ :: _, [] => false
  | a :: as, b :: bs => a == b && isPrefixCharList as bs

/-- s.startsWith(pre) -/
def strStartsWith (s pre : String) : Bool :=
  isPrefixCharList pre.toList s.toList

/-- s.slice(n) for a character count n. -/
def strDrop (s : String) (n : Nat) : String :=
  (s.toList.drop n).asString

def containsSubCharList : List Char → List Char → Bool
  | [], pat => pat.isEmpty
  | x :: xs, pat => isPrefixCharList pat (x :: xs) || containsSubCharList xs pat

/-- value.split('|').map(s => s.trim()) from applyBlockDelta. -/
def splitTrim (value : String) : List String :=
  ((splitChar '|' value.toList).map List.asString).map strTrim

/-- The accumulating-array paths of applyBlockDelta. -/
def isAccumPath (path : String) : Bool :=
  path == "rows" || path == "items" || path == "steps"

/-- applyBlockDelta from useStreamingQuery.ts (lines 463-487), acting on the
block data object.  Returns none exactly when the JS code would throw a
TypeError (push on a non-array value); that exception is swallowed by the
try/catch around the event dispatch, so the caller keeps the previous data. -/
def applyBlockDelta (data : DataMap) (path : String) (value : String) :
    Option DataMap :=
  if isAccumPath path then
    let base := if jsFalsy (getEntry data path) then
                  setEntry data path (.arr []) else data
    match getEntry base path with
    | some (.arr l) =>
        let elem : JVal :=
          if path == "rows" then .arr ((splitTrim value).map .str)
          else .str value
        some (setEntry base path (.arr (l ++ [elem])))
    | _ => none
  else if path == "headers" then
    some (setEntry data path (.arr ((splitTrim value).map .str)))
  else
    match getEntry data path with
    | some (.str s) => some (setEntry data path (.str (s ++ value)))
    | _ => some (setEntry data path (.str value))

/-- StreamingBlockState from useStreamingQuery.ts.  block_type is a String:
the source cast (data.block_type as BlockType) is a compile-time assertion
only, so the original tag flows through at runtime.  The source field named
p-a-r-t-i-a-l is rendered here as wasPartial. -/
structure StreamingBlockState where
  block_id : String
  block_type : String
  data : DataMap
  streaming : Bool
  wasPartial : Bool

/-- ContentBlock from useStreamingQuery.ts: type plus a data object. -/
structure ContentBlock where
  type : String
  data : DataMap

/-- stateToContentBlock (lines 489-497): the data object literal
with id first, then the block data spread over it. -/
def stateToContentBlock (st : StreamingBlockState) : ContentBlock :=
  { type := st.block_type
    data := st.data.foldl (fun m kv => setEntry m kv.1 kv.2)
      [("id", JVal.str st.block_id)] }

abbrev BlockMap := List (String × StreamingBlockState)

/-- buildBlocksFromState (lines 499-510): completed blocks first, then the
still-open blocks in Map insertion order. -/
def buildBlocksFromState (completed : List ContentBlock) (streaming : BlockMap) :
    List ContentBlock :=
  completed ++ streaming.map (fun kv => stateToContentBlock kv.2)

/-- Reads a data value as a string, as the (v as string) || fallback casts in
blocksToTextFallback do; non-string values never occur at these keys for
blocks produced by the assembler. -/
def jvalAsString : Option JVal → String
  | some (.str s) => s
  | _ => ""

/-- Reads a data value as a list of strings, as the (v as string[]) || []
casts do. -/
def jvalStrList : Option JVal → List String
  | some (.arr l) => l.map (fun v => match v with | .str s => s | _ => "")
  | _ => []

/-- blocksToTextFallback (lines 512-532): plain-text rendition of a block. -/
def blockTextFallback (b : ContentBlock) : String :=
  if b.type == "text" || b.type == "markdown" then
    jvalAsString (getEntry b.data "content")
  else if b.type == "list" then
    String.intercalate "\n" (jvalStrList (getEntry b.data "items"))
  else if b.type == "steps" then
    String.intercalate "\n"
      (((jvalStrList (getEntry b.data "steps")).enum).map
        (fun p => toString (p.1 + 1) ++ ". " ++ p.2))
  else if b.type == "table" then
    "[Table: " ++ String.intercalate ", " (jvalStrList (getEntry b.data "headers")) ++ "]"
  else if b.type == "code" then
    "```" ++ jvalAsString (getEntry b.data "language") ++ "\n" ++
      jvalAsString (getEntry b.data "code") ++ "```"
  else ""

/-- blocksToTextFallback: map, filter(Boolean), join with blank lines. -/
def blocksToTextFallback (blocks : List ContentBlock) : String :=
  String.intercalate "\n\n"
    ((blocks.map blockTextFallback).filter (fun s => !(s == "")))

/-- The parsed SSE events dispatched by the streamQuery loop (lines 241-376).
Field values carry the already-extracted payload fields; a missing or falsy
string field is rendered as the empty string. -/
inductive SEvent where
  | conversation_id (cid : String)
  | user_message_id (mid : String)
  | start
  | progress (message : String)
  | block_start (block_id : String) (block_type : String)
  | block_delta (block_id : String) (path : String) (value : String)
  | block_end (block_id : String) (wasPartial : Bool)
  | response (text : String)
  | citations (cits : List String)
  | confidence_update
  | done
  | error (message : String)

/-- One onMessageUpdate argument: a Partial Message.  A none field is a key
omitted from the update object (the consumer merges updates over the previous
message, so omitted keys keep their previous value).  The numeric confidence
field of the done update is not modelled (no claim concerns its value). -/
structure MsgUpdate where
  content : Option String
  blocks : Option (List ContentBlock)
  citationsField : Option (List String)
  streaming : Option Bool

/-- The mutable state of one streamQuery invocation: fullResponse, citations,
receivedDoneEvent, stopStreamingRef, the open-block Map, the completed-block
array, and the sequence of onMessageUpdate calls made so far.  Only the
synchronous onMessageUpdate calls are recorded: the requestAnimationFrame
batched updates (scheduleUpdate, lines 170-187) always carry streaming true,
so they are irrelevant to the final-snapshot and failure claims; they can
also refresh fullResponse from block content, which none of the recorded
traces rely on. -/
structure LoopState where
  fullResponse : String
  citations : List String
  receivedDoneEvent : Bool
  stopStreaming : Bool
  streamingBlocks : BlockMap
  completedBlocks : List ContentBlock
  updates : List MsgUpdate

def pushUpdate (s : LoopState) (u : MsgUpdate) : LoopState :=
  { s with updates := s.updates ++ [u] }

/-- One iteration of the SSE event dispatch (lines 233-381).  The for-loop
checks stopStreamingRef at the top of each iteration, so once a done or
error handler has set it every later event of the stream is skipped. -/
def stepEvent (s : LoopState) (e : SEvent) : LoopState :=
  if s.stopStreaming then s else
  match e with
  | .conversation_id _ => s
  | .user_message_id _ => s
  | .start =>
      pushUpdate s ⟨some "Retrieving relevant documents...", none, none, some true⟩
  | .progress msg =>
      let m := if msg == "" then "Processing..." else msg
      if s.fullResponse == "" then
        pushUpdate s ⟨some m, none, none, some true⟩
      else s
  | .block_start bid bt =>
      let t := if bt == "" then "text" else bt
      { s with streamingBlocks :=
          setEntry s.streamingBlocks bid ⟨bid, t, [], true, false⟩ }
  | .block_delta bid path value =>
      let m1 := if (getEntry s.streamingBlocks bid).isSome then s.streamingBlocks
                else setEntry s.streamingBlocks bid ⟨bid, "text", [], true, false⟩
      match getEntry m1 bid with
      | some st =>
          match applyBlockDelta st.data path value with
          | some d' =>
              { s with streamingBlocks := setEntry m1 bid { st with data := d' } }
          | none => { s with streamingBlocks := m1 }
      | none => { s with streamingBlocks := m1 }
  | .block_end bid p =>
      match getEntry s.streamingBlocks bid with
      | some st =>
          let st' := { st with streaming := false, wasPartial := p }
          { s with
              completedBlocks := s.completedBlocks ++ [stateToContentBlock st'],
              streamingBlocks := delEntry s.streamingBlocks bid }
      | none => s
  | .response t =>
      pushUpdate { s with fullResponse := t } ⟨some t, none, none, some true⟩
  | .citations cs =>
      pushUpdate { s with citations := cs } ⟨none, none, some cs, some true⟩
  | .confidence_update => s
  | .done =>
      let finalBlocks := buildBlocksFromState s.completedBlocks s.streamingBlocks
      let ft := blocksToTextFallback finalBlocks
      let finalContent :=
        if !(ft == "") then ft
        else if !(s.fullResponse == "") then s.fullResponse
        else "No response received."
      pushUpdate { s with receivedDoneEvent := true, stopStreaming := true }
        ⟨some finalContent,
         if finalBlocks.isEmpty then none else some finalBlocks,
         some s.citations, some false⟩
  | .error msg =>
      let em := if msg == "" then "Stream error occurred" else msg
      pushUpdate { s with stopStreaming := true }
        ⟨some (if !(s.fullResponse == "") then s.fullResponse else em),
         none, none, some false⟩

/-- Post-loop finalization (lines 384-405): when the stream ended without a
done event, a further final update is delivered when any content exists, or
when the loop was not stopped. -/
def finalizeStream (s : LoopState) : LoopState :=
  if s.receivedDoneEvent then s else
  let finalBlocks := buildBlocksFromState s.completedBlocks s.streamingBlocks
  if !(s.fullResponse == "") || !s.citations.isEmpty || !finalBlocks.isEmpty then
    let ft := blocksToTextFallback finalBlocks
    let finalContent :=
      if !(ft == "") then ft
      else if !(s.fullResponse == "") then s.fullResponse
      else "Response stream ended unexpectedly."
    pushUpdate s ⟨some finalContent,
      if finalBlocks.isEmpty then none else some finalBlocks,
      some s.citations, some false⟩
  else if !s.stopStreaming then
    pushUpdate s ⟨some "No response received from the server. The stream ended without data.",
      none, none, some false⟩
  else s

def initLoopState : LoopState := ⟨"", [], false, false, [], [], []⟩

/-- The event dispatch loop run over a whole parsed event trace. -/
def runEvents (evs : List SEvent) : LoopState :=
  evs.foldl stepEvent initLoopState

/-- A full stream that delivers the given events and then ends normally
(reader read returns done), running the post-loop finalization. -/
def runStream (evs : List SEvent) : LoopState :=
  finalizeStream (runEvents evs)

/-- A JavaScript exception value as inspected by the outer catch handler. -/
structure JsError where
  name : String
  message : String

/-- err.message.includes(pat). -/
def strIncludes (s pat : String) : Bool :=
  containsSubCharList s.toList pat.toList

/-- The error message chosen by the outer catch handler (lines 417-425). -/
def catchErrorMessage (e : JsError) : String :=
  if e.name == "TypeError" &&
      (strIncludes e.message "Failed to fetch" || strIncludes e.message "ERR_NETWORK") then
    "Cannot connect to API server. Please check your network connection."
  else if e.name == "AbortError" then
    "Request was cancelled. Please try again."
  else if !(e.message == "") then e.message
  else "An error occurred while processing your query"

/-- A stream whose transport throws after the given events were processed
(for example reader.read() rejecting on a mid-stream network failure).  The
exception jumps past the post-loop finalization to the catch handler, which
delivers one update carrying only the error message (lines 411-428). -/
def runStreamWithTransportError (evs : List SEvent) (e : JsError) : LoopState :=
  pushUpdate (runEvents evs) ⟨some (catchErrorMessage e), none, none, some false⟩

/-- True for an update delivered with streaming set to false. -/
def isFinalSnapshot (u : MsgUpdate) : Bool :=
  match u.streaming with
  | some b => !b
  | none => false

def countFinalSnapshots (l : List MsgUpdate) : Nat :=
  (l.filter isFinalSnapshot).length

/-- Observable happenings for the timeout supervision of streamQuery:
a transport chunk arriving, or the sixty-second mark of the single
setTimeout (line 199) elapsing. -/
inductive TimerEvent where
  | dataChunk
  | timerFire

/-- The timeout lifecycle state of one streamQuery invocation.  The source
arms exactly one timer (STREAM_TIMEOUT, line 92; the comment at line 198
reads Single timeout check); the loop clears it at the first received chunk
(lines 222-226, while fullResponse is still empty); no other timer is ever
armed. -/
structure TimeoutState where
  timerArmed : Bool
  firstDataArrived : Bool
  cancelled : Bool
  timeoutUpdate : Option MsgUpdate

def stepTimer (s : TimeoutState) (e : TimerEvent) : TimeoutState :=
  match e with
  | .dataChunk =>
      if s.timerArmed && !s.firstDataArrived then
        { s with timerArmed := false, firstDataArrived := true }
      else { s with firstDataArrived := true }
  | .timerFire =>
      if s.timerArmed && !s.cancelled then
        { s with cancelled := true, timerArmed := false,
                 timeoutUpdate := some ⟨some "The server did not respond in time. Please try again.",
                   none, none, some false⟩ }
      else s

def initTimeoutState : TimeoutState := ⟨true, false, false, none⟩

def runTimer (l : List TimerEvent) : TimeoutState :=
  l.foldl stepTimer initTimeoutState

/-! SSE line parser, src/utils/sse_parser.ts.  JSON.parse is abstracted as a
parameter returning some parsed value or none on a parse error (JSON.parse
throwing is the none case of the try/catch); the line dispatch logic is
independent of the payload representation.  The regex replace of the prefix
followed by trim equals dropping the prefix characters and trimming, since
the regexes are anchored and only consume the literal prefix plus
whitespace. -/

/-- The result object of SSEParser.parseLine: optional event name plus the
parsed data. -/
structure SSEResult (α : Type) where
  eventName : Option String
  data : α

/-- this.currentEventName || undefined: an empty recorded name is falsy and
is attached as undefined. -/
def jsNameOrUndefined (st : Option String) : Option String :=
  match st with
  | some n => if n == "" then none else some n
  | none => none

/-- SSEParser.parseLine (lines 26-61): returns the parse result (or null)
together with the new currentEventName state. -/
def parseLine {α : Type} (parse : String → Option α) (st : Option String)
    (line : String) : Option (SSEResult α) × Option String :=
  if strStartsWith line "event:" then
    (none, some (strTrim (strDrop line 6)))
  else if strStartsWith line "data:" then
    let payload := strTrim (strDrop line 5)
    if payload == "" then (none, none)
    else
      match parse payload with
      | some d => (some ⟨jsNameOrUndefined st, d⟩, none)
      | none => (none, none)
  else if strTrim line == "" then (none, none)
  else (none, st)

/-- parseSSELine (lines 68-77): the stateless legacy variant. -/
def parseSSELine {α : Type} (parse : String → Option α) (line : String) :
    Option α :=
  if strStartsWith line "data:" then
    let payload := strTrim (strDrop line 5)
    if payload == "" then none else parse payload
  else none

/-! Helper lemmas about the association-list object model. -/

theorem getEntry_setEntry_self {α : Type} (m : List (String × α)) (k : String) (v : α) :
    getEntry (setEntry m k v) k = some v := by
  induction m with
  | nil => simp [setEntry, getEntry]
  | cons kv rest ih =>
      obtain ⟨k', v'⟩ := kv
      by_cases h : k' = k
      · simp [setEntry, getEntry, h]
      · simp [setEntry, getEntry, h, ih]

theorem setEntry_setEntry_self {α : Type} (m : List (String × α)) (k : String) (v w : α) :
    setEntry (setEntry m k v) k w = setEntry m k w := by
  induction m with
  | nil => simp [setEntry]
  | cons kv rest ih =>
      obtain ⟨k', v'⟩ := kv
      by_cases h : k' = k
      · simp [setEntry, h]
      · simp [setEntry, h, ih]

theorem getEntry_setEntry_ne {α : Type} (m : List (String × α)) (k k' : String) (v : α)
    (h : k' ≠ k) : getEntry (setEntry m k v) k' = getEntry m k' := by
  induction m with
  | nil => simp [setEntry, getEntry, Ne.symm h]
  | cons kv rest ih =>
      obtain ⟨k0, v0⟩ := kv
      by_cases h0 : k0 = k
      · subst h0
        simp [setEntry, getEntry, Ne.symm h]
      · by_cases h1 : k0 = k'
        · simp [setEntry, getEntry, h0, h1, h]
        · simp [setEntry, getEntry, h0, h1, ih]

/-! Claim C2: the path merge rules of applyBlockDelta. -/

/-- The existing value at path is an array, or the path is absent (also
covering the falsy empty string, which the source re-initializes): these are
the only shapes an accumulating path can hold in a block assembled by the
pipeline. -/
def arrOrAbsent (o : Option JVal) : Prop :=
  o = none ∨ ∃ l, o = some (JVal.arr l)

/-- The array element a delta appends: for rows the delimiter-split row of
cells, otherwise the raw value. -/
def deltaElem (path value : String) : JVal :=
  if path == "rows" then .arr ((splitTrim value).map .str) else .str value

/-- The array currently at the path, if any. -/
def arrAt (data : DataMap) (path : String) : List JVal :=
  match getEntry data path with
  | some (.arr l) => l
  | _ => []

/-- The path merge rules exactly as the specification words them: append to
the accumulating array fields (rows split into a row of cells), replace
headers with the delimiter-split list, concatenate onto an existing string,
otherwise replace. -/
def applyDeltaSpecRule (data : DataMap) (path value : String) : DataMap :=
  if isAccumPath path then
    setEntry data path (.arr (arrAt data path ++ [deltaElem path value]))
  else if path == "headers" then
    setEntry data path (.arr ((splitTrim value).map .str))
  else
    match getEntry data path with
    | some (.str s) => setEntry data path (.str (s ++ value))
    | _ => setEntry data path (.str value)

/-- Claim C2 (confirmed): for every open block and applied delta, the source
applyBlockDelta realizes exactly the merge rules of the specification —
append for rows, items and steps (rows delimiter-split into cells), replace
for headers, string concatenation onto an existing string, replacement
otherwise.  The hypothesis records that an accumulating path holds an array
or is absent, which holds for every block the pipeline assembles (only the
append branch ever writes those paths). -/
theorem applyBlockDelta_matches_spec_rules (data : DataMap) (path value : String)
    (h : isAccumPath path = true → arrOrAbsent (getEntry data path)) :
    applyBlockDelta data path value = some (applyDeltaSpecRule data path value) := by
  by_cases hacc : isAccumPath path = true
  · rcases h hacc with habs | ⟨l, harr⟩
    · simp [applyBlockDelta, applyDeltaSpecRule, hacc, habs, jsFalsy,
        getEntry_setEntry_self, setEntry_setEntry_self, arrAt, deltaElem]
    · simp [applyBlockDelta, applyDeltaSpecRule, hacc, harr, jsFalsy,
        arrAt, deltaElem]
  · simp only [Bool.not_eq_true] at hacc
    by_cases hh : (path == "headers") = true
    · simp [applyBlockDelta, applyDeltaSpecRule, hacc, hh]
    · simp only [Bool.not_eq_true] at hh
      cases hg : getEntry data path with
      | none => simp [applyBlockDelta, applyDeltaSpecRule, hacc, hh, hg]
      | some v =>
          cases v with
          | str s => simp [applyBlockDelta, applyDeltaSpecRule, hacc, hh, hg]
          | arr l => simp [applyBlockDelta, applyDeltaSpecRule, hacc, hh, hg]

/-- Witness for C2 at a concrete table block: appending a second row. -/
theorem applyBlockDelta_matches_spec_rules_witness :
    applyBlockDelta [("rows", JVal.arr [JVal.str "x"])] "rows" "a|b" =
      some (applyDeltaSpecRule [("rows", JVal.arr [JVal.str "x"])] "rows" "a|b") :=
  applyBlockDelta_matches_spec_rules _ _ _
    (fun _ => Or.inr ⟨[JVal.str "x"], rfl⟩)

/-! Claim C3: text accumulation round-trip. -/

/-- Concatenation of a list of strings in order, starting from acc. -/
def concatFrom (acc : String) (vs : List String) : String :=
  vs.foldl (fun a b => a ++ b) acc

/-- Concatenation of the delta values in arrival order. -/
def concatAll (vs : List String) : String :=
  concatFrom "" vs

theorem applyBlockDelta_fresh (p v : String) (h1 : isAccumPath p = false)
    (h2 : (p == "headers") = false) :
    applyBlockDelta [] p v = some [(p, JVal.str v)] := by
  simp [applyBlockDelta, h1, h2, getEntry, setEntry]

theorem applyBlockDelta_str_accum (p v acc : String) (h1 : isAccumPath p = false)
    (h2 : (p == "headers") = false) :
    applyBlockDelta [(p, JVal.str acc)] p v = some [(p, JVal.str (acc ++ v))] := by
  simp [applyBlockDelta, h1, h2, getEntry, setEntry]

theorem stepEvent_delta_single (s : LoopState) (bid p v : String)
    (st : StreamingBlockState) (d' : DataMap)
    (hstop : s.stopStreaming = false)
    (hblocks : s.streamingBlocks = [(bid, st)])
    (happ : applyBlockDelta st.data p v = some d') :
    stepEvent s (SEvent.block_delta bid p v) =
      { s with streamingBlocks := [(bid, { st with data := d' })] } := by
  simp [stepEvent, hstop, hblocks, getEntry, setEntry, happ]

theorem stepEvent_end_single (s : LoopState) (bid : String) (q : Bool)
    (st : StreamingBlockState)
    (hstop : s.stopStreaming = false)
    (hblocks : s.streamingBlocks = [(bid, st)]) :
    stepEvent s (SEvent.block_end bid q) =
      { s with
          completedBlocks := s.completedBlocks ++
            [stateToContentBlock { st with streaming := false, wasPartial := q }],
          streamingBlocks := [] } := by
  simp [stepEvent, hstop, hblocks, getEntry, delEntry]

theorem finalizeStream_completedBlocks (s : LoopState) :
    (finalizeStream s).completedBlocks = s.completedBlocks := by
  unfold finalizeStream
  split
  · rfl
  · dsimp only
    split
    · simp [pushUpdate]
    · split
      · simp [pushUpdate]
      · rfl

theorem deltas_fold (bid p : String) (h1 : isAccumPath p = false)
    (h2 : (p == "headers") = false) :
    ∀ (vs : List String) (s : LoopState) (acc : String),
      s.stopStreaming = false →
      s.streamingBlocks = [(bid, ⟨bid, "text", [(p, JVal.str acc)], true, false⟩)] →
      (vs.map (fun v => SEvent.block_delta bid p v)).foldl stepEvent s =
        { s with streamingBlocks :=
            [(bid, ⟨bid, "text", [(p, JVal.str (concatFrom acc vs))], true, false⟩)] } := by
  intro vs
  induction vs with
  | nil =>
      intro s acc hstop hblocks
      show s = { s with streamingBlocks :=
        [(bid, ⟨bid, "text", [(p, JVal.str acc)], true, false⟩)] }
      rw [← hblocks]
  | cons v vs ih =>
      intro s acc hstop hblocks
      simp only [List.map_cons, List.foldl_cons]
      rw [stepEvent_delta_single s bid p v _ [(p, JVal.str (acc ++ v))] hstop hblocks
        (by simpa using applyBlockDelta_str_accum p v acc h1 h2)]
      rw [ih _ (acc ++ v) (by simp [hstop]) (by simp)]
      rfl

/-- Claim C3 (confirmed): a block assembled purely from text-accumulation
deltas to one non-special string path ends with the concatenation of the
delta values in arrival order at that path, and the concrete scenario
block_start(b1,text), block_delta(b1,content,Hi ), block_delta(b1,content,
there), block_end(b1,false) yields the ContentBlock with type text and data
id b1, content Hi there. -/
theorem text_accumulation_round_trip :
    (∀ (bid p : String) (vs : List String),
      isAccumPath p = false → (p == "headers") = false → vs ≠ [] →
      (runStream (SEvent.block_start bid "text" ::
          (vs.map (fun v => SEvent.block_delta bid p v) ++ [SEvent.block_end bid false]))).completedBlocks.map
        (fun b => getEntry b.data p) = [some (JVal.str (concatAll vs))])
    ∧ (runStream [SEvent.block_start "b1" "text",
        SEvent.block_delta "b1" "content" "Hi ",
        SEvent.block_delta "b1" "content" "there",
        SEvent.block_end "b1" false]).completedBlocks =
      [⟨"text", [("id", JVal.str "b1"), ("content", JVal.str "Hi there")]⟩] := by
  constructor
  · intro bid p vs h1 h2 hne
    obtain ⟨v, vs, rfl⟩ : ∃ w ws, vs = w :: ws := by
      cases vs with
      | nil => exact absurd rfl hne
      | cons w ws => exact ⟨w, ws, rfl⟩
    unfold runStream
    rw [finalizeStream_completedBlocks]
    unfold runEvents
    simp only [List.foldl_cons, List.map_cons, List.foldl_append, List.foldl_nil]
    have hstart : stepEvent initLoopState (SEvent.block_start bid "text") =
        ⟨"", [], false, false, [(bid, ⟨bid, "text", [], true, false⟩)], [], []⟩ := rfl
    rw [hstart]
    rw [stepEvent_delta_single _ bid p v _ [(p, JVal.str v)] rfl rfl
      (applyBlockDelta_fresh p v h1 h2)]
    rw [deltas_fold bid p h1 h2 vs _ v rfl rfl]
    rw [stepEvent_end_single _ bid false _ rfl rfl]
    simp only [List.nil_append, List.map_cons, List.map_nil]
    have : stateToContentBlock
        ⟨bid, "text", [(p, JVal.str (concatFrom v vs))], false, false⟩ =
        ⟨"text", setEntry [("id", JVal.str bid)] p (JVal.str (concatFrom v vs))⟩ := rfl
    rw [this]
    simp only [getEntry_setEntry_self]
    have hconcat : concatFrom v vs = concatAll (v :: vs) := rfl
    rw [hconcat]
  · rfl

/-- Witness for C3 discharging the hypotheses at the concrete scenario
path and values. -/
theorem text_accumulation_round_trip_witness :
    (runStream (SEvent.block_start "b1" "text" ::
        (["Hi ", "there"].map (fun v => SEvent.block_delta "b1" "content" v) ++
          [SEvent.block_end "b1" false]))).completedBlocks.map
      (fun b => getEntry b.data "content") =
      [some (JVal.str (concatAll ["Hi ", "there"]))] :=
  text_accumulation_round_trip.1 "b1" "content" ["Hi ", "there"] rfl rfl
    (by simp)

/-! Claim C1: handling of unknown block types. -/

/-- The known block type tags of the BlockType union (excluding the
unknown fallback arm). -/
def knownBlockTypes : List String :=
  ["text", "table", "list", "code", "markdown", "quote", "divider", "callout",
   "key_value", "json", "metric", "steps", "media", "error"]

theorem stepEvent_delta_single_err (s : LoopState) (bid p v : String)
    (st : StreamingBlockState)
    (hstop : s.stopStreaming = false)
    (hblocks : s.streamingBlocks = [(bid, st)])
    (happ : applyBlockDelta st.data p v = none) :
    stepEvent s (SEvent.block_delta bid p v) = s := by
  obtain ⟨fr, cits, rd, stp, sb, cb, ups⟩ := s
  simp only at hstop hblocks
  subst hstop
  subst hblocks
  simp [stepEvent, getEntry, happ]

theorem deltas_preserve_meta (bid : String) :
    ∀ (ds : List (String × String)) (s : LoopState) (st : StreamingBlockState),
      s.stopStreaming = false →
      s.streamingBlocks = [(bid, st)] →
      ∃ d', (ds.map (fun d => SEvent.block_delta bid d.1 d.2)).foldl stepEvent s =
        { s with streamingBlocks := [(bid, { st with data := d' })] } := by
  intro ds
  induction ds with
  | nil =>
      intro s st hstop hblocks
      refine ⟨st.data, ?_⟩
      have he : ({ st with data := st.data } : StreamingBlockState) = st := rfl
      rw [he, ← hblocks]
      rfl
  | cons d ds ih =>
      intro s st hstop hblocks
      simp only [List.map_cons, List.foldl_cons]
      cases happ : applyBlockDelta st.data d.1 d.2 with
      | some d1 =>
          rw [stepEvent_delta_single s bid d.1 d.2 st d1 hstop hblocks happ]
          obtain ⟨d', hd⟩ := ih
            { s with streamingBlocks := [(bid, { st with data := d1 })] }
            { st with data := d1 } hstop rfl
          exact ⟨d', by rw [hd]⟩
      | none =>
          rw [stepEvent_delta_single_err s bid d.1 d.2 st hstop hblocks happ]
          exact ih s st hstop hblocks

/-- Claim C1 counterexample: the stream block_start(b2, future_kind),
block_end(b2, false) assembles the ContentBlock with type future_kind —
the original tag, not unknown — and its data object has no raw sub-field
at all, contradicting the claim that the assembled ContentBlock has type
unknown with the original tag and data preserved under a dedicated
sub-field.  The source cast (data.block_type as BlockType) performs no
runtime normalization. -/
theorem unknown_type_not_normalized :
    (runEvents [SEvent.block_start "b2" "future_kind",
        SEvent.block_end "b2" false]).completedBlocks =
      [⟨"future_kind", [("id", JVal.str "b2")]⟩]
    ∧ "future_kind" ≠ "unknown"
    ∧ getEntry ([("id", JVal.str "b2")] : DataMap) "raw" = none :=
  ⟨rfl, by decide, rfl⟩

/-- Claim C1 amended (proved): a block whose declared type is not among the
known enum values is accepted and never raised as an error — the handlers
deliver no error update at all — and the assembled ContentBlock carries the
original type tag verbatim in its type field (with the accumulated data plus
the id), rather than being normalized to unknown with a raw sub-field. -/
theorem unknown_type_assembly (bid bt : String) (q : Bool)
    (ds : List (String × String))
    (_hk : ¬ bt ∈ knownBlockTypes) (hne : bt ≠ "") :
    ((runEvents (SEvent.block_start bid bt ::
        (ds.map (fun d => SEvent.block_delta bid d.1 d.2) ++
          [SEvent.block_end bid q]))).completedBlocks.map ContentBlock.type = [bt])
    ∧ (runEvents (SEvent.block_start bid bt ::
        (ds.map (fun d => SEvent.block_delta bid d.1 d.2) ++
          [SEvent.block_end bid q]))).updates = [] := by
  have hbt : (bt == "") = false := beq_eq_false_iff_ne.mpr hne
  have hstart : stepEvent initLoopState (SEvent.block_start bid bt) =
      ⟨"", [], false, false, [(bid, ⟨bid, bt, [], true, false⟩)], [], []⟩ := by
    simp [stepEvent, initLoopState, hbt, setEntry]
  unfold runEvents
  simp only [List.foldl_cons, List.foldl_append]
  rw [hstart]
  obtain ⟨d', hd⟩ := deltas_preserve_meta bid ds
    ⟨"", [], false, false, [(bid, ⟨bid, bt, [], true, false⟩)], [], []⟩
    ⟨bid, bt, [], true, false⟩ rfl rfl
  rw [hd]
  rw [stepEvent_end_single _ bid q _ rfl rfl]
  constructor
  · rfl
  · rfl

/-- Witness for C1 amended at a concrete future type with one delta. -/
theorem unknown_type_assembly_witness :
    ((runEvents (SEvent.block_start "b2" "future_kind" ::
        ([(("content" : String), ("x" : String))].map
          (fun d => SEvent.block_delta "b2" d.1 d.2) ++
          [SEvent.block_end "b2" false]))).completedBlocks.map ContentBlock.type =
      ["future_kind"])
    ∧ (runEvents (SEvent.block_start "b2" "future_kind" ::
        ([(("content" : String), ("x" : String))].map
          (fun d => SEvent.block_delta "b2" d.1 d.2) ++
          [SEvent.block_end "b2" false]))).updates = [] :=
  unknown_type_assembly "b2" "future_kind" false [("content", "x")]
    (by decide) (by decide)

/-! Claim C4: every referenced block id is either preceded by a block_start
or synthesized at first sight. -/

/-- The block id referenced by a block_delta or block_end event. -/
def eventBlockRef : SEvent → Option String
  | .block_delta bid _ _ => some bid
  | .block_end bid _ => some bid
  | _ => none

/-- The event is a block_start for the given id. -/
def isBlockStartFor (e : SEvent) (bid : String) : Prop :=
  ∃ t, e = SEvent.block_start bid t

/-- Claim C4 as stated, over an event trace: every block_delta or block_end
was preceded by a block_start for its id, or the assembler holds a
synthesized open block for that id right after processing the event. -/
def claimC4holds (evs : List SEvent) : Prop :=
  ∀ (i : Nat) (hi : i < evs.length) (bid : String),
    eventBlockRef (evs.get ⟨i, hi⟩) = some bid →
    (∃ j, ∃ hj : j < evs.length, j < i ∧ isBlockStartFor (evs.get ⟨j, hj⟩) bid) ∨
    (getEntry (runEvents (evs.take (i + 1))).streamingBlocks bid).isSome = true

/-- Claim C4 counterexample: the one-event trace block_end(x, false)
references block id x without a preceding block_start, and the assembler
synthesizes nothing for it — the block_end handler silently ignores an id
with no open block, so neither path of the claim applies. -/
theorem block_end_unknown_id_counterexample :
    ¬ claimC4holds [SEvent.block_end "x" false] := by
  intro h
  rcases h 0 (by decide) "x" rfl with ⟨j, hj, hlt, _⟩ | hmem
  · exact absurd hlt (Nat.not_lt_zero j)
  · exact absurd hmem (by decide)

theorem applyBlockDelta_nil_isSome (p v : String) :
    ∃ d, applyBlockDelta ([] : DataMap) p v = some d := by
  by_cases ha : isAccumPath p = true
  · refine ⟨[(p, JVal.arr [if p == "rows" then JVal.arr ((splitTrim v).map JVal.str)
      else JVal.str v])], ?_⟩
    simp [applyBlockDelta, ha, jsFalsy, getEntry, setEntry]
  · simp only [Bool.not_eq_true] at ha
    by_cases hh : (p == "headers") = true
    · exact ⟨setEntry [] p (.arr ((splitTrim v).map .str)),
        by simp [applyBlockDelta, ha, hh]⟩
    · simp only [Bool.not_eq_true] at hh
      exact ⟨[(p, JVal.str v)],
        by simp [applyBlockDelta, ha, hh, getEntry, setEntry]⟩

/-- Claim C4 amended (proved): a block_delta for an unseen id always
synthesizes an implicit text-typed block (after any block_delta the id is
open), while a block_end whose id has no open block is ignored without any
state change — it neither synthesizes a block nor raises an error. -/
theorem delta_synthesizes_end_ignores :
    (∀ (s : LoopState) (bid p v : String), s.stopStreaming = false →
      (getEntry (stepEvent s (SEvent.block_delta bid p v)).streamingBlocks bid).isSome = true)
    ∧ (∀ (s : LoopState) (bid : String) (q : Bool), s.stopStreaming = false →
      getEntry s.streamingBlocks bid = none →
      stepEvent s (SEvent.block_end bid q) = s) := by
  constructor
  · intro s bid p v hstop
    cases hg : getEntry s.streamingBlocks bid with
    | some st =>
        cases happ : applyBlockDelta st.data p v with
        | some d' => simp [stepEvent, hstop, hg, happ, getEntry_setEntry_self]
        | none => simp [stepEvent, hstop, hg, happ]
    | none =>
        obtain ⟨d0, hd0⟩ := applyBlockDelta_nil_isSome p v
        simp [stepEvent, hstop, hg, getEntry_setEntry_self, hd0]
  · intro s bid q hstop hg
    simp [stepEvent, hstop, hg]

/-- Witness for C4 amended: a delta for a never-started id opens a block;
a block_end for a never-started id leaves the state untouched. -/
theorem delta_synthesizes_end_ignores_witness :
    (getEntry (stepEvent initLoopState
        (SEvent.block_delta "x" "content" "hi")).streamingBlocks "x").isSome = true
    ∧ stepEvent initLoopState (SEvent.block_end "x" false) = initLoopState :=
  ⟨delta_synthesizes_end_ignores.1 initLoopState "x" "content" "hi" rfl,
   delta_synthesizes_end_ignores.2 initLoopState "x" false rfl rfl⟩

/-! Claim C5: the timeout layers. -/

theorem stepTimer_disarmed (l : List TimerEvent) :
    ∀ s : TimeoutState, s.timerArmed = false →
      (l.foldl stepTimer s).timerArmed = false ∧
      (l.foldl stepTimer s).cancelled = s.cancelled ∧
      (l.foldl stepTimer s).timeoutUpdate = s.timeoutUpdate := by
  induction l with
  | nil => intro s h; exact ⟨h, rfl, rfl⟩
  | cons e l ih =>
      intro s h
      cases e with
      | dataChunk =>
          have hstep : stepTimer s .dataChunk = { s with firstDataArrived := true } := by
            simp [stepTimer, h]
          rw [List.foldl_cons, hstep]
          exact ih _ h
      | timerFire =>
          have hstep : stepTimer s .timerFire = s := by
            simp [stepTimer, h]
          rw [List.foldl_cons, hstep]
          exact ih s h

/-- Claim C5 counterexample: once the first chunk has arrived, the sixty
second mark elapsing mid-stream cancels nothing and delivers no timeout
update — the single timer (source comment at line 198: Single timeout
check) was already cleared at the first chunk, and no between-chunk or
total-duration timer exists, contradicting the claimed three independent
timeout layers and in particular the claim that silence mid-stream after
the first chunk still triggers cancellation. -/
theorem no_midstream_timeout_counterexample :
    (runTimer [TimerEvent.dataChunk, TimerEvent.timerFire]).cancelled = false
    ∧ (runTimer [TimerEvent.dataChunk, TimerEvent.timerFire]).timeoutUpdate = none :=
  ⟨rfl, rfl⟩

/-- Claim C5 amended (proved): exactly one timeout layer exists, a
first-chunk timeout: if the timer mark elapses before any data arrived the
read is cancelled and the content is replaced by a timeout message with
streaming false (open blocks are not closed as partial); once any chunk has
arrived first, no later silence or total duration ever cancels the read. -/
theorem single_first_chunk_timeout (l : List TimerEvent) :
    (runTimer (TimerEvent.dataChunk :: l)).cancelled = false
    ∧ (runTimer (TimerEvent.timerFire :: l)).cancelled = true
    ∧ (runTimer (TimerEvent.timerFire :: l)).timeoutUpdate =
        some ⟨some "The server did not respond in time. Please try again.",
          none, none, some false⟩ := by
  have h1 : stepTimer initTimeoutState .dataChunk = ⟨false, true, false, none⟩ := rfl
  have h2 : stepTimer initTimeoutState .timerFire =
      ⟨false, false, true,
        some ⟨some "The server did not respond in time. Please try again.",
          none, none, some false⟩⟩ := rfl
  refine ⟨?_, ?_, ?_⟩
  · show ((TimerEvent.dataChunk :: l).foldl stepTimer initTimeoutState).cancelled = false
    rw [List.foldl_cons, h1]
    exact (stepTimer_disarmed l _ rfl).2.1
  · show ((TimerEvent.timerFire :: l).foldl stepTimer initTimeoutState).cancelled = true
    rw [List.foldl_cons, h2]
    exact (stepTimer_disarmed l _ rfl).2.1
  · show ((TimerEvent.timerFire :: l).foldl stepTimer initTimeoutState).timeoutUpdate = _
    rw [List.foldl_cons, h2]
    exact (stepTimer_disarmed l _ rfl).2.2

/-! Claim C6: last known good content on failure. -/

/-- Claim C6 counterexample: a mid-stream transport failure (reader.read
rejecting with a network TypeError) after the content Hello was delivered
produces a final update whose content is the transport error message, which
is not and does not contain the last known good content Hello — the catch
handler replaces the content instead of preserving it, so previously
delivered content is silently blanked on this failure kind. -/
theorem transport_error_blanks_content :
    (runStreamWithTransportError [SEvent.response "Hello"]
        ⟨"TypeError", "Failed to fetch"⟩).updates =
      [⟨some "Hello", none, none, some true⟩,
       ⟨some "Cannot connect to API server. Please check your network connection.",
         none, none, some false⟩]
    ∧ (runEvents [SEvent.response "Hello"]).fullResponse = "Hello"
    ∧ strIncludes
        "Cannot connect to API server. Please check your network connection."
        "Hello" = false :=
  ⟨rfl, rfl, rfl⟩

/-- Claim C6 amended (proved): on an upstream error event the last known
good content does remain — the error update carries the accumulated
fullResponse whenever it is nonempty, with streaming false — but on a
transport exception (and on the pre-first-chunk timeout) the content field
is replaced by an error message; previously delivered blocks persist only
because the blocks key is omitted from those updates and the consumer
merges updates over the previous message. -/
theorem error_event_preserves_content (s : LoopState) (m : String)
    (hstop : s.stopStreaming = false)
    (hfr : (s.fullResponse == "") = false) :
    (stepEvent s (SEvent.error m)).updates =
      s.updates ++ [⟨some s.fullResponse, none, none, some false⟩] := by
  simp [stepEvent, pushUpdate, hstop, hfr]

/-- Witness for C6 amended: after accumulating Hello, an upstream error
event delivers an update that retains Hello as the content. -/
theorem error_event_preserves_content_witness :
    (stepEvent (runEvents [SEvent.response "Hello"]) (SEvent.error "boom")).updates =
      (runEvents [SEvent.response "Hello"]).updates ++
        [⟨some "Hello", none, none, some false⟩] :=
  error_event_preserves_content (runEvents [SEvent.response "Hello"]) "boom" rfl rfl

/-! Claim C7: exactly one final snapshot with streaming false. -/

theorem foldl_stepEvent_stopped :
    ∀ (evs : List SEvent) (s : LoopState), s.stopStreaming = true →
      evs.foldl stepEvent s = s := by
  intro evs
  induction evs with
  | nil => intro s _; rfl
  | cons e evs ih =>
      intro s h
      have hstep : stepEvent s e = s := by simp [stepEvent, h]
      rw [List.foldl_cons, hstep]
      exact ih s h

theorem stepEvent_done_props (s : LoopState) (hstop : s.stopStreaming = false) :
    (stepEvent s SEvent.done).receivedDoneEvent = true ∧
    (stepEvent s SEvent.done).stopStreaming = true ∧
    countFinalSnapshots (stepEvent s SEvent.done).updates =
      countFinalSnapshots s.updates + 1 := by
  simp [stepEvent, hstop, pushUpdate, countFinalSnapshots, List.filter_append,
    isFinalSnapshot]

theorem stepEvent_nonterminal (s : LoopState) (e : SEvent)
    (hstop : s.stopStreaming = false)
    (hne : ∀ m, e ≠ SEvent.error m) (hnd : e ≠ SEvent.done) :
    countFinalSnapshots (stepEvent s e).updates = countFinalSnapshots s.updates ∧
    (stepEvent s e).receivedDoneEvent = s.receivedDoneEvent ∧
    (stepEvent s e).stopStreaming = false := by
  cases e with
  | conversation_id cid => simp [stepEvent, hstop]
  | user_message_id mid => simp [stepEvent, hstop]
  | start =>
      simp [stepEvent, hstop, pushUpdate, countFinalSnapshots,
        List.filter_append, isFinalSnapshot]
  | progress msg =>
      by_cases h : (s.fullResponse == "") = true <;>
        simp [stepEvent, hstop, h, pushUpdate, countFinalSnapshots,
          List.filter_append, isFinalSnapshot]
  | block_start bid bt => simp [stepEvent, hstop]
  | block_delta bid p v =>
      cases hg : getEntry s.streamingBlocks bid with
      | some st =>
          cases happ : applyBlockDelta st.data p v with
          | some d' => simp [stepEvent, hstop, hg, happ]
          | none => simp [stepEvent, hstop, hg, happ]
      | none =>
          obtain ⟨d0, hd0⟩ := applyBlockDelta_nil_isSome p v
          simp [stepEvent, hstop, hg, getEntry_setEntry_self, hd0]
  | block_end bid q =>
      cases hg : getEntry s.streamingBlocks bid with
      | some st => simp [stepEvent, hstop, hg]
      | none => simp [stepEvent, hstop, hg]
  | response t =>
      simp [stepEvent, hstop, pushUpdate, countFinalSnapshots,
        List.filter_append, isFinalSnapshot]
  | citations cs =>
      simp [stepEvent, hstop, pushUpdate, countFinalSnapshots,
        List.filter_append, isFinalSnapshot]
  | confidence_update => simp [stepEvent, hstop]
  | done => exact absurd rfl hnd
  | error m => exact absurd rfl (hne m)

theorem runLoop_done_count :
    ∀ (evs : List SEvent) (s : LoopState),
      (∀ m, SEvent.error m ∉ evs) →
      s.stopStreaming = false →
      s.receivedDoneEvent = false →
      countFinalSnapshots s.updates = 0 →
      (SEvent.done ∈ evs →
        countFinalSnapshots (evs.foldl stepEvent s).updates = 1 ∧
        (evs.foldl stepEvent s).receivedDoneEvent = true) ∧
      (SEvent.done ∉ evs →
        countFinalSnapshots (evs.foldl stepEvent s).updates = 0 ∧
        (evs.foldl stepEvent s).receivedDoneEvent = false ∧
        (evs.foldl stepEvent s).stopStreaming = false) := by
  intro evs
  induction evs with
  | nil =>
      intro s herr hstop hdone hcount
      exact ⟨fun h => absurd h (List.not_mem_nil _),
        fun _ => ⟨hcount, hdone, hstop⟩⟩
  | cons e evs ih =>
      intro s herr hstop hdone hcount
      by_cases hd : e = SEvent.done
      · subst hd
        obtain ⟨h1, h2, h3⟩ := stepEvent_done_props s hstop
        rw [List.foldl_cons, foldl_stepEvent_stopped evs _ h2]
        refine ⟨fun _ => ⟨?_, h1⟩, fun h => absurd (List.mem_cons_self _ _) h⟩
        rw [h3, hcount]
      · have hne : ∀ m, e ≠ SEvent.error m := by
          intro m hm
          exact herr m (hm ▸ List.mem_cons_self _ _)
        obtain ⟨h1, h2, h3⟩ := stepEvent_nonterminal s e hstop hne hd
        have herr' : ∀ m, SEvent.error m ∉ evs := fun m hm =>
          herr m (List.mem_cons_of_mem _ hm)
        have ihs := ih (stepEvent s e) herr' h3 (h2.trans hdone) (h1.trans hcount)
        rw [List.foldl_cons]
        constructor
        · intro hmem
          rcases List.mem_cons.mp hmem with heq | hmem'
          · exact absurd heq.symm hd
          · exact ihs.1 hmem'
        · intro hmem
          have hmem' : SEvent.done ∉ evs := fun h =>
            hmem (List.mem_cons_of_mem _ h)
          exact ihs.2 hmem'

/-- Claim C7 counterexample: a stream that accumulates the content Hello and
then receives an upstream error event delivers two snapshots with streaming
false — one from the error handler and a second from the post-loop stream
ended without done block, which fires because content exists — not exactly
one. -/
theorem error_stream_two_final_snapshots :
    countFinalSnapshots (runStream [SEvent.response "Hello",
      SEvent.error "boom"]).updates = 2 := rfl

/-- Claim C7 amended (proved): a stream terminated by a done event (with no
upstream error event) delivers exactly one snapshot with streaming false
and none after it; an upstream error event with accumulated content instead
yields a second final snapshot from the post-loop block, and a user
cancellation with no content yields none. -/
theorem done_stream_single_final_snapshot (evs : List SEvent)
    (herr : ∀ m, SEvent.error m ∉ evs) (hdone : SEvent.done ∈ evs) :
    countFinalSnapshots (runStream evs).updates = 1 := by
  have h := (runLoop_done_count evs initLoopState herr rfl rfl rfl).1 hdone
  unfold runStream
  have hfin : finalizeStream (runEvents evs) = runEvents evs := by
    unfold finalizeStream
    simp [show (runEvents evs).receivedDoneEvent = true from h.2]
  rw [hfin]
  exact h.1

/-- Witness for C7 amended at a concrete done-terminated stream. -/
theorem done_stream_single_final_snapshot_witness :
    countFinalSnapshots (runStream [SEvent.response "Hi", SEvent.done]).updates = 1 :=
  done_stream_single_final_snapshot [SEvent.response "Hi", SEvent.done]
    (by intro m hm; simp at hm) (by simp)

/-! Claims C8 and C9: the SSE line parser. -/

/-- Claim C8 (confirmed): SSEParser.parseLine dispatch — an event-prefixed
line records the trimmed name and returns null; a data-prefixed line whose
payload parses as JSON returns the parsed data with the pending event name
attached and clears the pending name (stated for a pending name that is not
the falsy empty string, and for a parse function that rejects the empty
payload, as JSON.parse does); a blank line resets the pending name and
returns null; every other line returns null and keeps the state. -/
theorem sse_parseLine_dispatch {α : Type} (parse : String → Option α)
    (st : Option String) (line : String) :
    (strStartsWith line "event:" = true →
      parseLine parse st line = (none, some (strTrim (strDrop line 6))))
    ∧ (∀ v, strStartsWith line "event:" = false →
        strStartsWith line "data:" = true →
        parse (strTrim (strDrop line 5)) = some v →
        parse "" = none →
        st ≠ some "" →
        parseLine parse st line = (some ⟨st, v⟩, none))
    ∧ (strStartsWith line "event:" = false →
        strStartsWith line "data:" = false →
        strTrim line = "" →
        parseLine parse st line = (none, none))
    ∧ (strStartsWith line "event:" = false →
        strStartsWith line "data:" = false →
        strTrim line ≠ "" →
        parseLine parse st line = (none, st)) := by
  refine ⟨?_, ?_, ?_, ?_⟩
  · intro h
    simp [parseLine, h]
  · intro v hev hdata hv h0 hne
    have hp : strTrim (strDrop line 5) ≠ "" := by
      intro hp
      rw [hp, h0] at hv
      exact Option.noConfusion hv
    have hjs : jsNameOrUndefined st = st := by
      cases st with
      | none => rfl
      | some n =>
          have hn : ¬ n = "" := fun h => hne (by rw [h])
          simp [jsNameOrUndefined, hn]
    simp [parseLine, hev, hdata, beq_eq_false_iff_ne.mpr hp, hv, hjs]
  · intro hev hdata hblank
    simp [parseLine, hev, hdata, hblank]
  · intro hev hdata hblank
    simp [parseLine, hev, hdata, beq_eq_false_iff_ne.mpr hblank]

/-- Witness for C8 at concrete lines: a named data event, an event-name
line, a blank line and a comment line. -/
theorem sse_parseLine_dispatch_witness :
    parseLine (fun s => if s == "ok" then some 1 else none) (some "block")
      "data: ok" = (some ⟨some "block", 1⟩, none)
    ∧ parseLine (fun s => if s == "ok" then some 1 else none) (some "block")
      "event: blk" = (none, some "blk")
    ∧ parseLine (fun s => if s == "ok" then some 1 else none) (some "block")
      " " = (none, none)
    ∧ parseLine (fun s => if s == "ok" then some 1 else none) (some "block")
      ": c" = (none, some "block") :=
  ⟨(sse_parseLine_dispatch _ (some "block") "data: ok").2.1 1 rfl rfl rfl rfl
      (by decide),
   (sse_parseLine_dispatch _ (some "block") "event: blk").1 rfl,
   (sse_parseLine_dispatch _ (some "block") " ").2.2.1 rfl rfl rfl,
   (sse_parseLine_dispatch _ (some "block") ": c").2.2.2 rfl rfl (by decide)⟩

/-- Claim C9 (confirmed): the parsers are total on malformed data lines — a
data line whose payload is empty or fails to parse yields null rather than
an exception (the embedding renders the JS try/catch as the none branch),
and SSEParser.parseLine also clears the pending event name there;
parseSSELine likewise yields null. -/
theorem sse_parse_failure_total {α : Type} (parse : String → Option α)
    (st : Option String) (line : String)
    (hev : strStartsWith line "event:" = false)
    (hdata : strStartsWith line "data:" = true)
    (hfail : strTrim (strDrop line 5) = "" ∨
      parse (strTrim (strDrop line 5)) = none) :
    parseLine parse st line = (none, none)
    ∧ parseSSELine parse line = none := by
  rcases hfail with hp | hp
  · simp [parseLine, parseSSELine, hev, hdata, hp]
  · by_cases he : strTrim (strDrop line 5) = ""
    · simp [parseLine, parseSSELine, hev, hdata, he]
    · simp [parseLine, parseSSELine, hev, hdata,
        beq_eq_false_iff_ne.mpr he, hp]

/-- Witness for C9 at a concrete malformed data line. -/
theorem sse_parse_failure_total_witness :
    parseLine (fun _ => (none : Option Nat)) (some "block") "data: bad" =
      (none, none)
    ∧ parseSSELine (fun _ => (none : Option Nat)) "data: bad" = none :=
  sse_parse_failure_total (fun _ => (none : Option Nat)) (some "block")
    "data: bad" rfl rfl (Or.inr rfl)

/-! Claim C10: completed blocks are immutable and listed first. -/

theorem stepEvent_completed_extends (s : LoopState) (e : SEvent) :
    ∃ ext, (stepEvent s e).completedBlocks = s.completedBlocks ++ ext := by
  by_cases hstop : s.stopStreaming = true
  · exact ⟨[], by simp [stepEvent, hstop]⟩
  · have hstop' : s.stopStreaming = false := by
      simpa using hstop
    cases e with
    | conversation_id cid => exact ⟨[], by simp [stepEvent, hstop']⟩
    | user_message_id mid => exact ⟨[], by simp [stepEvent, hstop']⟩
    | start => exact ⟨[], by simp [stepEvent, hstop', pushUpdate]⟩
    | progress msg =>
        by_cases h : (s.fullResponse == "") = true <;>
          exact ⟨[], by simp [stepEvent, hstop', h, pushUpdate]⟩
    | block_start bid bt => exact ⟨[], by simp [stepEvent, hstop']⟩
    | block_delta bid p v =>
        refine ⟨[], ?_⟩
        cases hg : getEntry s.streamingBlocks bid with
        | some st =>
            cases happ : applyBlockDelta st.data p v with
            | some d' => simp [stepEvent, hstop', hg, happ]
            | none => simp [stepEvent, hstop', hg, happ]
        | none =>
            obtain ⟨d0, hd0⟩ := applyBlockDelta_nil_isSome p v
            simp [stepEvent, hstop', hg, getEntry_setEntry_self, hd0]
    | block_end bid q =>
        cases hg : getEntry s.streamingBlocks bid with
        | some st =>
            exact ⟨[stateToContentBlock
              { st with streaming := false, wasPartial := q }],
              by simp [stepEvent, hstop', hg]⟩
        | none => exact ⟨[], by simp [stepEvent, hstop', hg]⟩
    | response t => exact ⟨[], by simp [stepEvent, hstop', pushUpdate]⟩
    | citations cs => exact ⟨[], by simp [stepEvent, hstop', pushUpdate]⟩
    | confidence_update => exact ⟨[], by simp [stepEvent, hstop']⟩
    | done => exact ⟨[], by simp [stepEvent, hstop', pushUpdate]⟩
    | error m => exact ⟨[], by simp [stepEvent, hstop', pushUpdate]⟩

theorem runEvents_completed_monotone :
    ∀ (more : List SEvent) (s : LoopState), ∃ ext,
      (more.foldl stepEvent s).completedBlocks = s.completedBlocks ++ ext := by
  intro more
  induction more with
  | nil => intro s; exact ⟨[], by simp⟩
  | cons e more ih =>
      intro s
      obtain ⟨e1, he1⟩ := stepEvent_completed_extends s e
      obtain ⟨e2, he2⟩ := ih (stepEvent s e)
      exact ⟨e1 ++ e2, by rw [List.foldl_cons, he2, he1, List.append_assoc]⟩

/-- Claim C10 (confirmed): once a block is closed and its ContentBlock
appended to the completed list, later events only extend that list and
never change existing entries (the completed list after more events is the
earlier list plus a suffix); a block_delta for an id with no open block —
including a previously completed id — creates a fresh text-typed open
block, starting from empty data, without touching the completed list; and
every snapshot lists all completed blocks before all still-open blocks. -/
theorem completed_blocks_immutable :
    (∀ (evs more : List SEvent), ∃ ext,
      (runEvents (evs ++ more)).completedBlocks =
        (runEvents evs).completedBlocks ++ ext)
    ∧ (∀ (s : LoopState) (bid p v : String),
        s.stopStreaming = false →
        getEntry s.streamingBlocks bid = none →
        (stepEvent s (SEvent.block_delta bid p v)).completedBlocks =
          s.completedBlocks ∧
        getEntry (stepEvent s (SEvent.block_delta bid p v)).streamingBlocks bid =
          some ⟨bid, "text", (applyBlockDelta [] p v).getD [], true, false⟩)
    ∧ (∀ (c : List ContentBlock) (m : BlockMap),
        buildBlocksFromState c m = c ++ m.map (fun kv => stateToContentBlock kv.2)) := by
  refine ⟨?_, ?_, ?_⟩
  · intro evs more
    obtain ⟨ext, hext⟩ := runEvents_completed_monotone more (runEvents evs)
    refine ⟨ext, ?_⟩
    show ((evs ++ more).foldl stepEvent initLoopState).completedBlocks = _
    rw [List.foldl_append]
    exact hext
  · intro s bid p v hstop hg
    obtain ⟨d0, hd0⟩ := applyBlockDelta_nil_isSome p v
    constructor
    · simp [stepEvent, hstop, hg, getEntry_setEntry_self, hd0]
    · simp [stepEvent, hstop, hg, getEntry_setEntry_self, hd0,
        setEntry_setEntry_self]
  · intro c m
    rfl

/-- Witness for C10: after b1 has completed, a fresh delta to the same id
leaves the completed list untouched and opens a fresh text block. -/
theorem completed_blocks_immutable_witness :
    (stepEvent (runEvents [SEvent.block_start "b1" "text",
        SEvent.block_end "b1" false])
      (SEvent.block_delta "b1" "content" "x")).completedBlocks =
      (runEvents [SEvent.block_start "b1" "text",
        SEvent.block_end "b1" false]).completedBlocks
    ∧ getEntry (stepEvent (runEvents [SEvent.block_start "b1" "text",
        SEvent.block_end "b1" false])
        (SEvent.block_delta "b1" "content" "x")).streamingBlocks "b1" =
      some ⟨"b1", "text", (applyBlockDelta [] "content" "x").getD [], true, false⟩ :=
  completed_blocks_immutable.2.1
    (runEvents [SEvent.block_start "b1" "text", SEvent.block_end "b1" false])
    "b1" "content" "x" rfl rfl

end ChatSpec
